import Mathlib

/-!
# Verification of the rerun C++ columnar codec layer

This development embeds, in Lean 4, the codec layer of the rerun C++ SDK
visible in

* `rerun_cpp/src/rerun/datatypes/translation_rotation_scale3d.hpp`
* `rerun_cpp/src/rerun/blueprint/components/included_space_view.hpp`

The headers declare the data model (record layouts and their convenience
constructors, which are fully inline in the headers and embedded here
verbatim) together with the signatures of the encoding entry points
(`arrow_datatype`, `fill_arrow_array_builder`, `to_arrow`).  The bodies of
those entry points live in `.cpp` files that are not part of the visible
sources, so the encoding operations are modelled from the specification of
the codec layer (null/validity model, fixed-width codec, optional-field
codec, composite struct codec, component wrapper) and each such definition
says so in its doc comment.

Machine floats are carried as their 32-bit patterns (`F32 := Nat`): the
codec copies float values bit-for-bit into the columnar payload and never
interprets them arithmetically, so an opaque bit pattern is a faithful
carrier.
-/

/-- The bit pattern of an IEEE-754 single-precision float.  The codec layer
only ever copies floats; it never computes with them, so the payload type is
an opaque 32-bit pattern. -/
abbrev F32 := Nat

/-- Modelled from the spec: a 3D vector of three `f32` components
(`vec3d.hpp`, included by the visible header but not itself visible; the
spec types the field as `3×f32`). -/
structure Vec3D where
  x : F32
  y : F32
  z : F32
deriving DecidableEq, Repr

/-- Modelled from the spec: a 3D rotation carried as four `f32` components
(`rotation3d.hpp` is not visible; the spec concrete scenario types the
field as `4×f32`). -/
structure Rotation3D where
  x : F32
  y : F32
  z : F32
  w : F32
deriving DecidableEq, Repr

/-- Modelled from the spec: a 3D scale, either per-axis (`3×f32`) or uniform
(`f32`) (`scale3d.hpp` is not visible; the spec types the field as
`3×f32 | f32`, and the visible constructors build the uniform alternative
from a raw `float`). -/
inductive Scale3D where
  | threeD (v : Vec3D)
  | uniform (u : F32)
deriving DecidableEq, Repr

/-- `TranslationRotationScale3D`: three independently optional fields and a
required `bool`, exactly the field list and order of the visible struct
declaration. -/
structure TranslationRotationScale3D where
  translation : Option Vec3D
  rotation : Option Rotation3D
  scale : Option Scale3D
  from_parent : Bool
deriving DecidableEq, Repr

/-- Error kinds of the codec layer, from the spec error-handling design:
`SchemaViolation` (required field received a null, or a fixed-width field
received the wrong number of primitive elements) and `AllocationFailure`. -/
inductive Err where
  | schemaViolation
  | allocationFailure
deriving DecidableEq, Repr

/-- The value of the `_from_parent` parameter when the caller omits it:
every convenience constructor declares `bool _from_parent = false`. -/
def trsDefaultFromParent : Bool := false

namespace TranslationRotationScale3D

/-- Constructor `(optional translation, optional rotation, optional scale,
from_parent)` — header lines 50–58. -/
def ctor_translation_rotation_scale (t : Option Vec3D) (r : Option Rotation3D)
    (s : Option Scale3D) (fp : Bool) : TranslationRotationScale3D :=
  ⟨t, r, s, fp⟩

/-- Constructor `(translation, rotation, uniform_scale : float, from_parent)`
— header lines 68–75; the float is consumed as a uniform scale. -/
def ctor_translation_rotation_uniform (t : Vec3D) (r : Rotation3D) (u : F32)
    (fp : Bool) : TranslationRotationScale3D :=
  ⟨some t, some r, some (Scale3D.uniform u), fp⟩

/-- Constructor `(translation, rotation, from_parent)` — header lines 82–88. -/
def ctor_translation_rotation (t : Vec3D) (r : Rotation3D) (fp : Bool) :
    TranslationRotationScale3D :=
  ⟨some t, some r, none, fp⟩

/-- Constructor `(translation, scale, from_parent)` — header lines 95–101. -/
def ctor_translation_scale (t : Vec3D) (s : Scale3D) (fp : Bool) :
    TranslationRotationScale3D :=
  ⟨some t, none, some s, fp⟩

/-- Constructor `(translation, uniform_scale : float, from_parent)` — header
lines 111–117. -/
def ctor_translation_uniform (t : Vec3D) (u : F32) (fp : Bool) :
    TranslationRotationScale3D :=
  ⟨some t, none, some (Scale3D.uniform u), fp⟩

/-- Constructor `(rotation, scale, from_parent)` — header lines 124–130. -/
def ctor_rotation_scale (r : Rotation3D) (s : Scale3D) (fp : Bool) :
    TranslationRotationScale3D :=
  ⟨none, some r, some s, fp⟩

/-- Constructor `(rotation, uniform_scale : float, from_parent)` — header
lines 140–146. -/
def ctor_rotation_uniform (r : Rotation3D) (u : F32) (fp : Bool) :
    TranslationRotationScale3D :=
  ⟨none, some r, some (Scale3D.uniform u), fp⟩

/-- Constructor `(translation, from_parent)` — header lines 153–157. -/
def ctor_translation (t : Vec3D) (fp : Bool) : TranslationRotationScale3D :=
  ⟨some t, none, none, fp⟩

/-- Constructor `(rotation, from_parent)` — header lines 164–168. -/
def ctor_rotation (r : Rotation3D) (fp : Bool) : TranslationRotationScale3D :=
  ⟨none, some r, none, fp⟩

/-- Constructor `(scale, from_parent)` — header lines 175–179. -/
def ctor_scale (s : Scale3D) (fp : Bool) : TranslationRotationScale3D :=
  ⟨none, none, some s, fp⟩

end TranslationRotationScale3D

/-- Modelled from the spec: the columnar struct array produced for
`TranslationRotationScale3D`.  One child column per field in declaration
order, plus one top-level validity bit per row.  An optional child column is
a value-or-null slot per row (the slot records the validity decision; for a
null slot no semantic payload is recorded — the unspecified filler a
fixed-size-list child physically stores for null slots carries no meaning
and is abstracted away).  The required `from_parent` column has no
per-row nullability. -/
structure TRSStructArray where
  top_validity : List Bool
  translation : List (Option Vec3D)
  rotation : List (Option Rotation3D)
  scale : List (Option Scale3D)
  from_parent : List Bool
deriving DecidableEq, Repr

/-- Modelled from the spec: the per-field values delivered to the composite
codec for one row.  Each field arrives as value-or-null — also the required
`from_parent` field, whose null models calling `append_null` on a required
field (the spec: the record field "may itself be `Optional<T>` at the
language level even if the schema field is required, in which case absence
is itself an error"). -/
structure TRSDelivered where
  translation : Option Vec3D
  rotation : Option Rotation3D
  scale : Option Scale3D
  from_parent : Option Bool
deriving DecidableEq, Repr

namespace TranslationRotationScale3D

/-- The delivered row a `TranslationRotationScale3D` value presents to the
codec: the optional fields as they are, the required field present. -/
def toDelivered (r : TranslationRotationScale3D) : TRSDelivered :=
  ⟨r.translation, r.rotation, r.scale, some r.from_parent⟩

/-- Modelled from the spec: the freshly created struct builder (all columns
empty). -/
def emptyBuilder : TRSStructArray := ⟨[], [], [], [], []⟩

/-- Modelled from the spec: append one row to the struct builder.  Each
field is delegated to its child codec in declaration order: the optional
children record the validity decision and value, the required `from_parent`
child rejects a null with `SchemaViolation` (never coercing it to a
default), and on success the top-level validity counter advances by one
valid row. -/
def appendRow (b : TRSStructArray) (d : TRSDelivered) :
    Except Err TRSStructArray :=
  match d.from_parent with
  | none => Except.error Err.schemaViolation
  | some fp =>
      Except.ok
        ⟨b.top_validity ++ [true], b.translation ++ [d.translation],
          b.rotation ++ [d.rotation], b.scale ++ [d.scale],
          b.from_parent ++ [fp]⟩

/-- Modelled from the spec: `fill_arrow_array_builder` — append every
delivered row in input order; the first failing row aborts the whole fill
with its error. -/
def fill_arrow_array_builder (b : TRSStructArray) :
    List TRSDelivered → Except Err TRSStructArray
  | [] => Except.ok b
  | d :: ds =>
      match appendRow b d with
      | Except.error e => Except.error e
      | Except.ok b2 => fill_arrow_array_builder b2 ds

/-- Modelled from the spec: the batch conversion entry point — create a
fresh builder, fill it with every record in input order, and finalize.  On
any element failure the whole call reports the error and no array. -/
def to_arrow (rs : List TranslationRotationScale3D) :
    Except Err TRSStructArray :=
  fill_arrow_array_builder emptyBuilder (rs.map toDelivered)

end TranslationRotationScale3D

/-- Modelled from the spec: the inverse, schema-driven projection — walk
the columns of the struct array in parallel and rebuild one record per
valid top-level row.  Fails (`none`) when the columns are misaligned or a
top-level row is null, neither of which the encoder produces. -/
def decodeTRSColumns : List Bool → List (Option Vec3D) →
    List (Option Rotation3D) → List (Option Scale3D) → List Bool →
    Option (List TranslationRotationScale3D)
  | [], [], [], [], [] => some []
  | true :: vs, t :: ts, r :: rs, s :: ss, f :: fs =>
      (decodeTRSColumns vs ts rs ss fs).map
        (fun rest => ⟨t, r, s, f⟩ :: rest)
  | _, _, _, _, _ => none

/-- Decode a whole `TranslationRotationScale3D` struct array back to the
record sequence it encodes. -/
def decodeTRS (a : TRSStructArray) :
    Option (List TranslationRotationScale3D) :=
  decodeTRSColumns a.top_validity a.translation a.rotation a.scale
    a.from_parent

/-- Modelled from the spec: a 128-bit identifier carried as a byte
sequence (`uuid.hpp` is not visible).  Well-formed values hold exactly 16
bytes; the codec validates the fixed width at encode time rather than
trusting the carrier. -/
structure Uuid where
  bytes : List Nat
deriving DecidableEq, Repr

/-- `IncludedSpaceView`: a component wrapping exactly one `Uuid` datatype,
as in the visible header. -/
structure IncludedSpaceView where
  space_view_id : Uuid
deriving DecidableEq, Repr

/-- Modelled from the spec: the columnar array type descriptor — a value
describing the array shape (primitive kind or fixed-size list of width W),
comparable for equality. -/
inductive ArrowDType where
  | uint8
  | fixedSizeList (width : Nat) (child : ArrowDType)
deriving DecidableEq, Repr

/-- Modelled from the spec: a fixed-size-list builder — per-element
validity bits plus the contiguous primitive payload. -/
structure FixedSizeListBuilder where
  validity : List Bool
  payload : List Nat
deriving DecidableEq, Repr

/-- The freshly created fixed-size-list builder. -/
def FixedSizeListBuilder.empty : FixedSizeListBuilder := ⟨[], []⟩

/-- Modelled from the spec: append one non-null fixed-width element — the
element must supply exactly `width` primitive bytes, which are written in
order and the slot is marked valid; any other byte count is a
`SchemaViolation`, never a silent truncation or padding. -/
def appendFixedBytes (width : Nat) (b : FixedSizeListBuilder)
    (bytes : List Nat) : Except Err FixedSizeListBuilder :=
  if bytes.length = width then
    Except.ok ⟨b.validity ++ [true], b.payload ++ bytes⟩
  else Except.error Err.schemaViolation

/-- Modelled from the spec: a finalized fixed-size-list array — its type
descriptor, validity bits and contiguous payload. -/
structure FixedSizeListArray where
  dtype : ArrowDType
  validity : List Bool
  payload : List Nat
deriving DecidableEq, Repr

/-- The row count of a finalized fixed-size-list array: one validity bit
per logical element. -/
def FixedSizeListArray.rows (a : FixedSizeListArray) : Nat :=
  a.validity.length

namespace Uuid

/-- Modelled from the spec: the array type of a `Uuid` — a fixed-size list
of 16 unsigned bytes. -/
def arrow_datatype : ArrowDType := ArrowDType.fixedSizeList 16 ArrowDType.uint8

/-- Modelled from the spec: `Uuid::fill_arrow_array_builder` — append the
16 bytes of every element in input order; the first failing element aborts
the whole fill with its error. -/
def fill_arrow_array_builder (b : FixedSizeListBuilder) :
    List Uuid → Except Err FixedSizeListBuilder
  | [] => Except.ok b
  | u :: us =>
      match appendFixedBytes 16 b u.bytes with
      | Except.error e => Except.error e
      | Except.ok b2 => fill_arrow_array_builder b2 us

/-- Modelled from the spec: the `Uuid` batch conversion — fresh builder,
fill, finalize into an array carrying the `Uuid` type descriptor. -/
def to_arrow (us : List Uuid) : Except Err FixedSizeListArray :=
  match fill_arrow_array_builder FixedSizeListBuilder.empty us with
  | Except.error e => Except.error e
  | Except.ok b => Except.ok ⟨arrow_datatype, b.validity, b.payload⟩

end Uuid

namespace LoggableIncludedSpaceView

/-- The component type name declared in the visible header
(`Loggable<IncludedSpaceView>::Name`). -/
def TypeName : String := "rerun.blueprint.components.IncludedSpaceView"

/-- Modelled from the spec: the component reports its wrapped datatype
array type unchanged. -/
def arrow_datatype : ArrowDType := Uuid.arrow_datatype

/-- Modelled from the spec: the component wrapper delegates the fill
entirely to the wrapped datatype codec on the underlying values. -/
def fill_arrow_array_builder (b : FixedSizeListBuilder)
    (xs : List IncludedSpaceView) : Except Err FixedSizeListBuilder :=
  Uuid.fill_arrow_array_builder b (xs.map (·.space_view_id))

/-- Modelled from the spec: the component batch conversion — fresh builder,
delegated fill, finalize.  The type name string plays no part. -/
def to_arrow (xs : List IncludedSpaceView) : Except Err FixedSizeListArray :=
  match fill_arrow_array_builder FixedSizeListBuilder.empty xs with
  | Except.error e => Except.error e
  | Except.ok b => Except.ok ⟨arrow_datatype, b.validity, b.payload⟩

end LoggableIncludedSpaceView

/-! ## Helper lemmas -/

/-- Filling a struct builder from actual records always succeeds and
appends, to every column, the per-record projections in input order. -/
theorem trs_fill_map_ok (rs : List TranslationRotationScale3D) :
    ∀ b : TRSStructArray,
    TranslationRotationScale3D.fill_arrow_array_builder b
        (rs.map TranslationRotationScale3D.toDelivered) =
      Except.ok
        ⟨b.top_validity ++ List.replicate rs.length true,
          b.translation ++ rs.map (·.translation),
          b.rotation ++ rs.map (·.rotation),
          b.scale ++ rs.map (·.scale),
          b.from_parent ++ rs.map (·.from_parent)⟩ := by
  induction rs with
  | nil =>
      intro b
      simp [TranslationRotationScale3D.fill_arrow_array_builder]
  | cons r rs ih =>
      intro b
      simp [TranslationRotationScale3D.fill_arrow_array_builder,
        TranslationRotationScale3D.appendRow,
        TranslationRotationScale3D.toDelivered, ih, List.replicate_succ,
        List.append_assoc]

/-- Decoding columns that are per-field projections of a record sequence
(with an all-valid top level) recovers the sequence. -/
theorem decodeTRSColumns_map (rs : List TranslationRotationScale3D) :
    decodeTRSColumns (List.replicate rs.length true)
      (rs.map (·.translation)) (rs.map (·.rotation)) (rs.map (·.scale))
      (rs.map (·.from_parent)) = some rs := by
  induction rs with
  | nil => rfl
  | cons r rs ih =>
      simp [decodeTRSColumns, List.replicate_succ, ih]

/-- Filling a fixed-size-list builder with well-formed (16-byte) elements
succeeds, appending one validity bit and 16 payload bytes per element, in
input order. -/
theorem uuid_fill_all_ok (us : List Uuid) :
    ∀ b : FixedSizeListBuilder, (∀ u ∈ us, u.bytes.length = 16) →
    Uuid.fill_arrow_array_builder b us =
      Except.ok
        ⟨b.validity ++ List.replicate us.length true,
          b.payload ++ (us.map (·.bytes)).flatten⟩ := by
  induction us with
  | nil =>
      intro b _
      simp [Uuid.fill_arrow_array_builder]
  | cons u us ih =>
      intro b hall
      have hu : u.bytes.length = 16 := hall u (by simp)
      have hrest : ∀ v ∈ us, v.bytes.length = 16 := by
        intro v hv; exact hall v (by simp [hv])
      simp [Uuid.fill_arrow_array_builder, appendFixedBytes, hu, ih _ hrest,
        List.replicate_succ, List.append_assoc]

/-- Filling a fixed-size-list builder aborts with `SchemaViolation` as soon
as any element has the wrong byte count. -/
theorem uuid_fill_bad_error (us : List Uuid) :
    ∀ b : FixedSizeListBuilder, (∃ u ∈ us, u.bytes.length ≠ 16) →
    Uuid.fill_arrow_array_builder b us = Except.error Err.schemaViolation := by
  induction us with
  | nil =>
      intro b hbad
      simp at hbad
  | cons u us ih =>
      intro b hbad
      by_cases hu : u.bytes.length = 16
      · have hrest : ∃ v ∈ us, v.bytes.length ≠ 16 := by
          rcases hbad with ⟨v, hv, hlen⟩
          rcases List.mem_cons.mp hv with h | h
          · exact absurd hu (h ▸ hlen)
          · exact ⟨v, h, hlen⟩
        simp [Uuid.fill_arrow_array_builder, appendFixedBytes, hu, ih _ hrest]
      · simp [Uuid.fill_arrow_array_builder, appendFixedBytes, hu]

/-- A successful fixed-size-list fill grows the validity (row) count by
exactly the number of input elements. -/
theorem uuid_fill_rows_of_ok (us : List Uuid) :
    ∀ b b2 : FixedSizeListBuilder,
    Uuid.fill_arrow_array_builder b us = Except.ok b2 →
    b2.validity.length = b.validity.length + us.length := by
  induction us with
  | nil =>
      intro b b2 h
      simp [Uuid.fill_arrow_array_builder] at h
      simp [← h]
  | cons u us ih =>
      intro b b2 h
      by_cases hu : u.bytes.length = 16
      · simp [Uuid.fill_arrow_array_builder, appendFixedBytes, hu] at h
        have := ih _ _ h
        simp [List.length_append] at this
        simp only [List.length_cons]
        omega
      · simp [Uuid.fill_arrow_array_builder, appendFixedBytes, hu] at h

/-- Extracting row `i` of a flattened list of fixed-width chunks recovers
chunk `i`. -/
theorem flatten_fixed_extract (W : Nat) :
    ∀ (ls : List (List Nat)), (∀ l ∈ ls, l.length = W) →
    ∀ (i : Nat) (l : List Nat), ls.get? i = some l →
    ((ls.flatten).drop (W * i)).take W = l := by
  intro ls
  induction ls with
  | nil =>
      intro _ i l h
      simp at h
  | cons l0 ls ih =>
      intro hall i l h
      have h0 : l0.length = W := hall l0 (by simp)
      cases i with
      | zero =>
          simp at h
          subst h
          simp [← h0, List.take_left l0 ls.flatten]
      | succ i =>
          have hrest : ∀ m ∈ ls, m.length = W := by
            intro m hm; exact hall m (by simp [hm])
          have hW : W * (i + 1) = l0.length + W * i := by
            rw [h0]; ring
          simp only [List.flatten_cons, hW, List.drop_append]
          exact ih hrest i l (by simpa using h)

/-! ## Claim theorems -/

/-- C9: every convenience constructor of `TranslationRotationScale3D` sets
exactly the fields passed to it to present, every omitted optional field to
absent (`nullopt`), and the defaulted `_from_parent` argument to `false`. -/
theorem C9_constructor_field_presence :
    trsDefaultFromParent = false ∧
    (∀ t r s fp, TranslationRotationScale3D.ctor_translation_rotation_scale
        t r s fp = ⟨t, r, s, fp⟩) ∧
    (∀ t r u fp, TranslationRotationScale3D.ctor_translation_rotation_uniform
        t r u fp = ⟨some t, some r, some (Scale3D.uniform u), fp⟩) ∧
    (∀ t r fp, TranslationRotationScale3D.ctor_translation_rotation t r fp =
        ⟨some t, some r, none, fp⟩) ∧
    (∀ t s fp, TranslationRotationScale3D.ctor_translation_scale t s fp =
        ⟨some t, none, some s, fp⟩) ∧
    (∀ t u fp, TranslationRotationScale3D.ctor_translation_uniform t u fp =
        ⟨some t, none, some (Scale3D.uniform u), fp⟩) ∧
    (∀ r s fp, TranslationRotationScale3D.ctor_rotation_scale r s fp =
        ⟨none, some r, some s, fp⟩) ∧
    (∀ r u fp, TranslationRotationScale3D.ctor_rotation_uniform r u fp =
        ⟨none, some r, some (Scale3D.uniform u), fp⟩) ∧
    (∀ t fp, TranslationRotationScale3D.ctor_translation t fp =
        ⟨some t, none, none, fp⟩) ∧
    (∀ r fp, TranslationRotationScale3D.ctor_rotation r fp =
        ⟨none, some r, none, fp⟩) ∧
    (∀ s fp, TranslationRotationScale3D.ctor_scale s fp =
        ⟨none, none, some s, fp⟩) := by
  refine ⟨rfl, ?_, ?_, ?_, ?_, ?_, ?_, ?_, ?_, ?_, ?_⟩ <;> intros <;> rfl

/-- C10: each uniform-scale overload stores its `float` argument as a
present uniform `scale` value, and with the `_from_parent` argument at its
declared default the constructed record has `from_parent = false` — the
float is never consumed as the boolean flag. -/
theorem C10_uniform_scale_overloads :
    (∀ t r u, TranslationRotationScale3D.ctor_translation_rotation_uniform
        t r u trsDefaultFromParent =
        ⟨some t, some r, some (Scale3D.uniform u), false⟩) ∧
    (∀ t u, TranslationRotationScale3D.ctor_translation_uniform
        t u trsDefaultFromParent =
        ⟨some t, none, some (Scale3D.uniform u), false⟩) ∧
    (∀ r u, TranslationRotationScale3D.ctor_rotation_uniform
        r u trsDefaultFromParent =
        ⟨none, some r, some (Scale3D.uniform u), false⟩) := by
  refine ⟨?_, ?_, ?_⟩ <;> intros <;> rfl

/-- C1: encoding any sequence of `TranslationRotationScale3D` records (any
mix of present and absent optional fields, any `from_parent`) succeeds, and
decoding the resulting struct array through the inverse schema-driven
projection reproduces the records exactly, including which optional fields
were absent. -/
theorem C1_round_trip (rs : List TranslationRotationScale3D) :
    ∃ a, TranslationRotationScale3D.to_arrow rs = Except.ok a ∧
      decodeTRS a = some rs := by
  refine ⟨⟨List.replicate rs.length true, rs.map (·.translation),
    rs.map (·.rotation), rs.map (·.scale), rs.map (·.from_parent)⟩, ?_, ?_⟩
  · have h := trs_fill_map_ok rs TranslationRotationScale3D.emptyBuilder
    simpa [TranslationRotationScale3D.to_arrow,
      TranslationRotationScale3D.emptyBuilder] using h
  · simpa [decodeTRS] using decodeTRSColumns_map rs

/-- C2: batch conversion is order preserving — a record sequence of length
N encodes to an array of exactly N rows whose row `i` carries the fields of
input record `i`, both for the `TranslationRotationScale3D` struct codec
and for the `IncludedSpaceView` fixed-size-list codec. -/
theorem C2_order_preservation :
    (∀ rs : List TranslationRotationScale3D, ∃ a,
      TranslationRotationScale3D.to_arrow rs = Except.ok a ∧
      a.top_validity.length = rs.length ∧
      (∀ i : Nat, a.translation[i]? = (rs[i]?).map (·.translation)) ∧
      (∀ i : Nat, a.rotation[i]? = (rs[i]?).map (·.rotation)) ∧
      (∀ i : Nat, a.scale[i]? = (rs[i]?).map (·.scale)) ∧
      (∀ i : Nat, a.from_parent[i]? = (rs[i]?).map (·.from_parent))) ∧
    (∀ xs : List IncludedSpaceView,
      (∀ x ∈ xs, x.space_view_id.bytes.length = 16) →
      ∃ a, LoggableIncludedSpaceView.to_arrow xs = Except.ok a ∧
        a.rows = xs.length ∧
        (∀ (i : Nat) (x : IncludedSpaceView), xs[i]? = some x →
          a.validity[i]? = some true ∧
          (a.payload.drop (16 * i)).take 16 = x.space_view_id.bytes)) := by
  constructor
  · intro rs
    refine ⟨⟨List.replicate rs.length true, rs.map (·.translation),
      rs.map (·.rotation), rs.map (·.scale), rs.map (·.from_parent)⟩, ?_,
      by simp, ?_, ?_, ?_, ?_⟩
    · have h := trs_fill_map_ok rs TranslationRotationScale3D.emptyBuilder
      simpa [TranslationRotationScale3D.to_arrow,
        TranslationRotationScale3D.emptyBuilder] using h
    all_goals intro i; simp [List.getElem?_map]
  · intro xs hall
    have hall2 : ∀ u ∈ xs.map (·.space_view_id), u.bytes.length = 16 := by
      intro u hu
      rcases List.mem_map.mp hu with ⟨x, hx, rfl⟩
      exact hall x hx
    have hfill := uuid_fill_all_ok (xs.map (·.space_view_id))
      FixedSizeListBuilder.empty hall2
    simp [FixedSizeListBuilder.empty] at hfill
    refine ⟨⟨LoggableIncludedSpaceView.arrow_datatype,
      List.replicate xs.length true,
      ((xs.map (·.space_view_id)).map (·.bytes)).flatten⟩, ?_, ?_, ?_⟩
    · simp [LoggableIncludedSpaceView.to_arrow,
        LoggableIncludedSpaceView.fill_arrow_array_builder, hfill,
        FixedSizeListBuilder.empty]
    · simp [FixedSizeListArray.rows]
    · intro i x hx
      have hlt : i < xs.length := by
        have := List.getElem?_eq_some.mp hx
        exact this.1
      constructor
      · simp [List.getElem?_replicate, hlt]
      · have hWall : ∀ l ∈ (xs.map (·.space_view_id)).map (·.bytes),
            l.length = 16 := by
          intro l hl
          rcases List.mem_map.mp hl with ⟨u, hu, rfl⟩
          exact hall2 u hu
        have hget : ((xs.map (·.space_view_id)).map (·.bytes)).get? i =
            some x.space_view_id.bytes := by
          simp [List.map_map, List.get?_eq_getElem?, List.getElem?_map, hx,
            Function.comp]
        exact flatten_fixed_extract 16 _ hWall i _ hget

/-- Witness for C2: a concrete well-formed one-element batch, with the
hypothesis discharged by evaluation. -/
theorem C2_order_preservation_witness :
    ∃ a, LoggableIncludedSpaceView.to_arrow
        [⟨⟨List.replicate 16 7⟩⟩] = Except.ok a ∧
      a.rows = [(⟨⟨List.replicate 16 7⟩⟩ : IncludedSpaceView)].length ∧
      (∀ (i : Nat) (x : IncludedSpaceView),
        [(⟨⟨List.replicate 16 7⟩⟩ : IncludedSpaceView)][i]? = some x →
        a.validity[i]? = some true ∧
        (a.payload.drop (16 * i)).take 16 = x.space_view_id.bytes) :=
  C2_order_preservation.2 [⟨⟨List.replicate 16 7⟩⟩] (by decide)

/-- C3: batch conversion is atomic — if any element of the input has the
wrong fixed width the whole `to_arrow` call returns an error and no array
is produced, and on success the array holds exactly one row per input
element (never a truncated or partially-filled array). -/
theorem C3_batch_atomicity (xs : List IncludedSpaceView) :
    ((∃ x ∈ xs, x.space_view_id.bytes.length ≠ 16) →
      LoggableIncludedSpaceView.to_arrow xs =
        Except.error Err.schemaViolation) ∧
    (∀ a, LoggableIncludedSpaceView.to_arrow xs = Except.ok a →
      a.rows = xs.length) := by
  constructor
  · intro hbad
    have hbad2 : ∃ u ∈ xs.map (·.space_view_id), u.bytes.length ≠ 16 := by
      rcases hbad with ⟨x, hx, hlen⟩
      exact ⟨x.space_view_id, List.mem_map_of_mem _ hx, hlen⟩
    have herr := uuid_fill_bad_error (xs.map (·.space_view_id))
      FixedSizeListBuilder.empty hbad2
    simp [LoggableIncludedSpaceView.to_arrow,
      LoggableIncludedSpaceView.fill_arrow_array_builder, herr]
  · intro a ha
    unfold LoggableIncludedSpaceView.to_arrow
      LoggableIncludedSpaceView.fill_arrow_array_builder at ha
    cases hfill : Uuid.fill_arrow_array_builder FixedSizeListBuilder.empty
        (xs.map (·.space_view_id)) with
    | error e => rw [hfill] at ha; exact absurd ha (by simp)
    | ok b =>
        rw [hfill] at ha
        have hrows := uuid_fill_rows_of_ok _ _ _ hfill
        simp [FixedSizeListBuilder.empty] at hrows
        have : a.validity = b.validity := by
          cases ha; rfl
        simp [FixedSizeListArray.rows, this, hrows]

/-- Witness for C3: a batch holding a 15-byte element fails whole, and a
well-formed singleton batch succeeds with one row. -/
theorem C3_batch_atomicity_witness :
    LoggableIncludedSpaceView.to_arrow [⟨⟨List.replicate 15 0⟩⟩] =
      Except.error Err.schemaViolation ∧
    FixedSizeListArray.rows
        ⟨ArrowDType.fixedSizeList 16 ArrowDType.uint8, [true],
          List.replicate 16 7⟩ =
      [(⟨⟨List.replicate 16 7⟩⟩ : IncludedSpaceView)].length :=
  ⟨(C3_batch_atomicity [⟨⟨List.replicate 15 0⟩⟩]).1 (by decide),
   (C3_batch_atomicity [⟨⟨List.replicate 16 7⟩⟩]).2 _ (by rfl)⟩

/-- C4: delivering a null for the required `from_parent` field in any row
makes the whole batch fill fail with `SchemaViolation` — no partial array
is returned and the null is never coerced to a default value. -/
theorem C4_required_null_rejection (b : TRSStructArray)
    (ds : List TRSDelivered) (h : ∃ d ∈ ds, d.from_parent = none) :
    TranslationRotationScale3D.fill_arrow_array_builder b ds =
      Except.error Err.schemaViolation := by
  induction ds generalizing b with
  | nil => simp at h
  | cons d ds ih =>
      cases hd : d.from_parent with
      | none =>
          simp [TranslationRotationScale3D.fill_arrow_array_builder,
            TranslationRotationScale3D.appendRow, hd]
      | some fp =>
          have hrest : ∃ d2 ∈ ds, d2.from_parent = none := by
            rcases h with ⟨d2, hd2, hnull⟩
            rcases List.mem_cons.mp hd2 with rfl | hmem
            · exact absurd hnull (by simp [hd])
            · exact ⟨d2, hmem, hnull⟩
          simp [TranslationRotationScale3D.fill_arrow_array_builder,
            TranslationRotationScale3D.appendRow, hd, ih _ hrest]

/-- Witness for C4: a concrete two-row batch whose second row delivers a
null required field fails whole with `SchemaViolation`. -/
theorem C4_required_null_rejection_witness :
    TranslationRotationScale3D.fill_arrow_array_builder
        TranslationRotationScale3D.emptyBuilder
        [⟨some ⟨1, 2, 3⟩, none, none, some false⟩,
          ⟨none, none, none, none⟩] =
      Except.error Err.schemaViolation :=
  C4_required_null_rejection TranslationRotationScale3D.emptyBuilder
    [⟨some ⟨1, 2, 3⟩, none, none, some false⟩, ⟨none, none, none, none⟩]
    (by decide)

/-- C5: appending one element to the width-16 fixed-size-list builder
writes exactly 16 primitive byte slots when the element supplies exactly 16
bytes, and any other byte count (for example 15 or 17) fails with
`SchemaViolation` instead of being silently truncated or padded. -/
theorem C5_fixed_width_invariant (b : FixedSizeListBuilder)
    (bytes : List Nat) :
    (bytes.length = 16 →
      appendFixedBytes 16 b bytes =
        Except.ok ⟨b.validity ++ [true], b.payload ++ bytes⟩ ∧
      (b.payload ++ bytes).length = b.payload.length + 16) ∧
    (bytes.length ≠ 16 →
      appendFixedBytes 16 b bytes = Except.error Err.schemaViolation) := by
  constructor
  · intro h
    exact ⟨by simp [appendFixedBytes, h], by simp [h]⟩
  · intro h
    simp [appendFixedBytes, h]

/-- Witness for C5: on a fresh builder, a 16-byte input appends exactly 16
payload slots, while 15- and 17-byte inputs fail with `SchemaViolation`. -/
theorem C5_fixed_width_invariant_witness :
    (appendFixedBytes 16 FixedSizeListBuilder.empty (List.replicate 16 9) =
        Except.ok ⟨[true], List.replicate 16 9⟩ ∧
      (FixedSizeListBuilder.empty.payload ++ List.replicate 16 9).length =
        FixedSizeListBuilder.empty.payload.length + 16) ∧
    appendFixedBytes 16 FixedSizeListBuilder.empty (List.replicate 15 9) =
      Except.error Err.schemaViolation ∧
    appendFixedBytes 16 FixedSizeListBuilder.empty (List.replicate 17 9) =
      Except.error Err.schemaViolation :=
  ⟨(C5_fixed_width_invariant FixedSizeListBuilder.empty
      (List.replicate 16 9)).1 (by decide),
   (C5_fixed_width_invariant FixedSizeListBuilder.empty
      (List.replicate 15 9)).2 (by decide),
   (C5_fixed_width_invariant FixedSizeListBuilder.empty
      (List.replicate 17 9)).2 (by decide)⟩

/-- C6: the empty batch succeeds, producing a structurally valid zero-row
array rather than an error, and its type descriptor is the same one every
successful non-empty batch carries. -/
theorem C6_empty_batch :
    LoggableIncludedSpaceView.to_arrow ([] : List IncludedSpaceView) =
      Except.ok ⟨LoggableIncludedSpaceView.arrow_datatype, [], []⟩ ∧
    FixedSizeListArray.rows
        ⟨LoggableIncludedSpaceView.arrow_datatype, [], []⟩ = 0 ∧
    (∀ (xs : List IncludedSpaceView) (a : FixedSizeListArray),
      LoggableIncludedSpaceView.to_arrow xs = Except.ok a →
      a.dtype = LoggableIncludedSpaceView.arrow_datatype) := by
  refine ⟨rfl, rfl, ?_⟩
  intro xs a ha
  unfold LoggableIncludedSpaceView.to_arrow
    LoggableIncludedSpaceView.fill_arrow_array_builder at ha
  cases hfill : Uuid.fill_arrow_array_builder FixedSizeListBuilder.empty
      (xs.map (·.space_view_id)) with
  | error e => rw [hfill] at ha; exact absurd ha (by simp)
  | ok b =>
      rw [hfill] at ha
      cases ha
      rfl

/-- Witness for C6: the zero-row array of the empty batch carries the same
type descriptor as a successful one-element batch. -/
theorem C6_empty_batch_witness :
    FixedSizeListArray.dtype
        ⟨ArrowDType.fixedSizeList 16 ArrowDType.uint8, [true],
          List.replicate 16 3⟩ =
      LoggableIncludedSpaceView.arrow_datatype :=
  C6_empty_batch.2.2 [⟨⟨List.replicate 16 3⟩⟩] _ (by rfl)

/-- C7: null independence of optional siblings — whenever two record
sequences agree on one optional field (values and presence alike), the
encoded column for that field is identical in both runs, regardless of how
the sibling optional fields differ. -/
theorem C7_null_independence (rs1 rs2 : List TranslationRotationScale3D) :
    (rs1.map (·.translation) = rs2.map (·.translation) →
      (TranslationRotationScale3D.to_arrow rs1).map (·.translation) =
        (TranslationRotationScale3D.to_arrow rs2).map (·.translation)) ∧
    (rs1.map (·.rotation) = rs2.map (·.rotation) →
      (TranslationRotationScale3D.to_arrow rs1).map (·.rotation) =
        (TranslationRotationScale3D.to_arrow rs2).map (·.rotation)) ∧
    (rs1.map (·.scale) = rs2.map (·.scale) →
      (TranslationRotationScale3D.to_arrow rs1).map (·.scale) =
        (TranslationRotationScale3D.to_arrow rs2).map (·.scale)) := by
  have h1 := trs_fill_map_ok rs1 TranslationRotationScale3D.emptyBuilder
  have h2 := trs_fill_map_ok rs2 TranslationRotationScale3D.emptyBuilder
  simp [TranslationRotationScale3D.emptyBuilder] at h1 h2
  refine ⟨?_, ?_, ?_⟩ <;> intro h <;>
    simp [TranslationRotationScale3D.to_arrow,
      TranslationRotationScale3D.emptyBuilder, h1, h2, Except.map, h]

/-- Witness for C7: two concrete one-record runs that differ in the
presence of `translation` but agree on `scale` produce identical `scale`
columns. -/
theorem C7_null_independence_witness :
    (TranslationRotationScale3D.to_arrow
        [⟨some ⟨1, 2, 3⟩, none, some (Scale3D.uniform 5), false⟩]).map
        (·.scale) =
      (TranslationRotationScale3D.to_arrow
        [⟨none, none, some (Scale3D.uniform 5), true⟩]).map (·.scale) :=
  (C7_null_independence
      [⟨some ⟨1, 2, 3⟩, none, some (Scale3D.uniform 5), false⟩]
      [⟨none, none, some (Scale3D.uniform 5), true⟩]).2.2 (by decide)

/-- C8: the `IncludedSpaceView` component delegates its encoding entirely
to the wrapped `Uuid` datatype codec — same array as encoding the
underlying `Uuid` values, same array type descriptor — and its only
addition is the distinct type name string, which plays no part in the
encoding. -/
theorem C8_component_delegation (xs : List IncludedSpaceView) :
    LoggableIncludedSpaceView.to_arrow xs =
      Uuid.to_arrow (xs.map (·.space_view_id)) ∧
    LoggableIncludedSpaceView.arrow_datatype = Uuid.arrow_datatype ∧
    LoggableIncludedSpaceView.TypeName =
      "rerun.blueprint.components.IncludedSpaceView" := by
  refine ⟨?_, rfl, rfl⟩
  unfold LoggableIncludedSpaceView.to_arrow Uuid.to_arrow
    LoggableIncludedSpaceView.fill_arrow_array_builder
  cases hfill : Uuid.fill_arrow_array_builder FixedSizeListBuilder.empty
      (xs.map (·.space_view_id)) <;> rfl
